import Mathlib

/-!
Verification of the RRT motion planner in src/Problem_2/rrt.py.

The planner is embedded shallowly:

* The generic tree-growing loop of RRT.solve (rrt.py lines 55-104) is modelled by
  RRT.solveStep / RRT.solveLoop / RRT.solve below.  The loop is generic over the
  configuration type sigma (a numpy state vector in the source; np.array_equal is exact
  elementwise equality, hence a DecidableEq instance), a scalar type R (floats in the
  source, modelled as an arbitrary linear order, instantiated with the real numbers for
  the concrete steering models), and an obstacle-set type O.  The methods the subclasses
  override (find_nearest, steer_towards, is_free_motion) are fields of an RRTProblem
  record, together with the constructor state x_init, x_goal, obstacles.
* The numpy arrays V and P are preallocated at capacity max_iters in the source and hold
  the logical prefixes V[:n], P[:n].  RRT.solveStep / RRT.solve track the logical
  prefixes as lists grown by appending; RRT.solveStepChk / RRT.solveChk additionally
  model the bounded writes themselves: a write V[n, :] = x_new with n at or above the
  capacity raises IndexError in the source (and V[0, :] = x_init already requires
  max_iters > 0), so the checked solve returns an Option, with none standing for the
  raised error, and it agrees with the logical model on every run whose writes stay in
  bounds.
* The calls np.random.random_sample() and np.random.uniform(lo, hi) read numpy global
  random state.  The embedding makes the consumed randomness explicit: stream k is the
  pair (z, u) of the iteration-k draw z of random_sample and the uniform state-space
  sample u that the iteration would use when z >= goal_bias.  The state-space bounds
  enter the source only through the distribution of u, so they are absorbed into the
  stream.  Plotting (matplotlib) is outside the model; the record SolveResult holds the
  outputs the source documents as its intermediate outputs (V, P, n, success,
  solution_path).
-/

/-- Result record of one call to RRT.solve: the success flag, the logical node table
V[:n], the logical parent table P[:n] (so the logical size n is V.length), and the
solution path, present exactly when the run succeeded. -/
structure SolveResult (σ : Type) where
  success : Bool
  V : List σ
  P : List Int
  path : Option (List σ)
deriving DecidableEq

/-- Outcome of one iteration of the solve loop: either the loop continues with the
(possibly extended) tree, or the goal was reached and the loop breaks with a path. -/
inductive StepOut (σ : Type) where
  | next (V : List σ) (P : List Int)
  | done (V : List σ) (P : List Int) (path : List σ)
deriving DecidableEq

/-- Node table of a step outcome. -/
def StepOut.V : StepOut σ → List σ
  | StepOut.next V _ => V
  | StepOut.done V _ _ => V

/-- Parent table of a step outcome. -/
def StepOut.P : StepOut σ → List Int
  | StepOut.next _ P => P
  | StepOut.done _ P _ => P

/-- The planning problem: the constructor state of an RRT object (rrt.py lines 9-14)
together with the three methods a concrete subclass supplies. -/
structure RRTProblem (σ R O : Type) where
  x_init : σ
  x_goal : σ
  obstacles : O
  find_nearest : List σ → σ → Nat
  steer_towards : σ → σ → R → σ
  is_free_motion : O → σ → σ → Bool

/-- The solution-path reconstruction loop of rrt.py lines 97-101:
starting from index idx, while V[idx] is not x_init, append V[P[idx]] and move to P[idx].
The fuel argument bounds the recursion; solve passes fuel = V.length, which the parent
invariant (each parent index is strictly smaller) makes sufficient, so the fuel never
runs out on the states the solver reaches. -/
def pathWalk [DecidableEq σ] (V : List σ) (P : List Int) (x_init : σ) : Nat → Nat → List σ
  | _, 0 => []
  | idx, Nat.succ fuel =>
    if V.getD idx x_init = x_init then []
    else V.getD (P.getD idx (-1)).toNat x_init ::
      pathWalk V P x_init (P.getD idx (-1)).toNat fuel

/-- The index trace of the reconstruction loop: the indices idx, P[idx], ... that
rrt.py lines 97-101 visit, ending with the first index on the parent chain whose stored
configuration equals x_init. -/
def walkIdx [DecidableEq σ] (V : List σ) (P : List Int) (x_init : σ) : Nat → Nat → List Nat
  | _, 0 => []
  | idx, Nat.succ fuel =>
    if V.getD idx x_init = x_init then [idx]
    else idx :: walkIdx V P x_init (P.getD idx (-1)).toNat fuel

/-- One iteration of the solve loop, rrt.py lines 79-104: draw z; sample x_rand (the goal
with probability goal_bias, else the uniform draw supplied by the stream); find the
nearest node; steer; and, when the motion is collision-free, append the new node with its
parent, breaking with a reconstructed path when the new node equals the goal exactly.
The tree state here is the logical prefix contents only; the bounds check of the
preallocated array writes is modelled by RRT.solveStepChk below. -/
def RRT.solveStep [DecidableEq σ] [LinearOrder R] (pb : RRTProblem σ R O)
    (eps goal_bias : R) (stream : Nat → R × σ) (k : Nat) (V : List σ) (P : List Int) :
    StepOut σ :=
  let z := (stream k).1
  let x_rand := if z < goal_bias then pb.x_goal else (stream k).2
  let idx_near := pb.find_nearest V x_rand
  let x_near := V.getD idx_near pb.x_init
  let x_new := pb.steer_towards x_near x_rand eps
  if pb.is_free_motion pb.obstacles x_near x_new = true then
    let V2 := V ++ [x_new]
    let P2 := P ++ [(idx_near : Int)]
    if x_new = pb.x_goal then
      StepOut.done V2 P2
        ((pb.x_goal :: pathWalk V2 P2 pb.x_init (V2.length - 1) V2.length).reverse)
    else StepOut.next V2 P2
  else StepOut.next V P

/-- The solve loop, rrt.py line 78: iterate solveStep for the remaining iteration count,
threading the iteration index k; on exhaustion return success = false with no path. -/
def RRT.solveLoop [DecidableEq σ] [LinearOrder R] (pb : RRTProblem σ R O)
    (eps goal_bias : R) (stream : Nat → R × σ) : Nat → Nat → List σ → List Int →
    SolveResult σ
  | _, 0, V, P => ⟨false, V, P, none⟩
  | k, Nat.succ rem, V, P =>
    match RRT.solveStep pb eps goal_bias stream k V P with
    | StepOut.next V2 P2 => RRT.solveLoop pb eps goal_bias stream (k + 1) rem V2 P2
    | StepOut.done V2 P2 path => ⟨true, V2, P2, some path⟩

/-- RRT.solve, rrt.py lines 55-104: root the tree at x_init with parent sentinel -1 and
run the loop for max_iters iterations. -/
def RRT.solve [DecidableEq σ] [LinearOrder R] (pb : RRTProblem σ R O)
    (eps : R) (max_iters : Nat) (goal_bias : R) (stream : Nat → R × σ) : SolveResult σ :=
  RRT.solveLoop pb eps goal_bias stream 0 max_iters [pb.x_init] [-1]

/-- One iteration of the solve loop with the preallocated-capacity write of the source
modelled faithfully: rrt.py line 91 executes V[n, :] = x_new on the numpy array of
shape (max_iters, d), which is valid only while the logical size n is below the capacity
max_iters; once n has reached the capacity the write raises IndexError, modelled by the
value none.  Otherwise the iteration behaves exactly as RRT.solveStep. -/
def RRT.solveStepChk [DecidableEq σ] [LinearOrder R] (pb : RRTProblem σ R O)
    (capacity : Nat) (eps goal_bias : R) (stream : Nat → R × σ) (k : Nat) (V : List σ)
    (P : List Int) : Option (StepOut σ) :=
  let z := (stream k).1
  let x_rand := if z < goal_bias then pb.x_goal else (stream k).2
  let idx_near := pb.find_nearest V x_rand
  let x_near := V.getD idx_near pb.x_init
  let x_new := pb.steer_towards x_near x_rand eps
  if pb.is_free_motion pb.obstacles x_near x_new = true then
    if V.length < capacity then
      let V2 := V ++ [x_new]
      let P2 := P ++ [(idx_near : Int)]
      if x_new = pb.x_goal then
        some (StepOut.done V2 P2
          ((pb.x_goal :: pathWalk V2 P2 pb.x_init (V2.length - 1) V2.length).reverse))
      else some (StepOut.next V2 P2)
    else none
  else some (StepOut.next V P)

/-- The solve loop over the capacity-checked iteration: a faulting write aborts the
whole call with no result (the raised IndexError propagates out of solve). -/
def RRT.solveLoopChk [DecidableEq σ] [LinearOrder R] (pb : RRTProblem σ R O)
    (capacity : Nat) (eps goal_bias : R) (stream : Nat → R × σ) :
    Nat → Nat → List σ → List Int → Option (SolveResult σ)
  | _, 0, V, P => some ⟨false, V, P, none⟩
  | k, Nat.succ rem, V, P =>
    match RRT.solveStepChk pb capacity eps goal_bias stream k V P with
    | none => none
    | some (StepOut.next V2 P2) =>
      RRT.solveLoopChk pb capacity eps goal_bias stream (k + 1) rem V2 P2
    | some (StepOut.done V2 P2 path) => some ⟨true, V2, P2, some path⟩

/-- RRT.solve with the bounded numpy storage modelled: the arrays are preallocated at
capacity max_iters (rrt.py lines 60 and 67), the root write V[0, :] = x_init of line 61
itself requires max_iters > 0, and every append must stay below the capacity; a call
whose run violates a bound raises IndexError and returns nothing, modelled by none.  On
every run whose writes all stay in bounds this agrees with RRT.solve (proved below). -/
def RRT.solveChk [DecidableEq σ] [LinearOrder R] (pb : RRTProblem σ R O)
    (eps : R) (max_iters : Nat) (goal_bias : R) (stream : Nat → R × σ) :
    Option (SolveResult σ) :=
  if 0 < max_iters then
    RRT.solveLoopChk pb max_iters eps goal_bias stream 0 max_iters [pb.x_init] [-1]
  else none

/-- The tree well-formedness invariant of the spec: V and P have the same logical size,
the size is at least 1 (the root), P[0] is the sentinel -1, and every later parent entry
is a valid index of a strictly earlier node. -/
def TreeInv (V : List σ) (P : List Int) : Prop :=
  P.length = V.length ∧ 1 ≤ P.length ∧ P.getD 0 (-1) = -1 ∧
    ∀ i : Nat, 0 < i → i < P.length → 0 ≤ P.getD i (-1) ∧ P.getD i (-1) < (i : Int)

/-- A 2D obstacle segment: an ordered pair of planar points. -/
def Segment : Type := (Real × Real) × (Real × Real)

/-- Orientation value of the ordered point triple (p, q, r): positive, negative or zero
according to the turn direction.  Support for the segment intersection predicate. -/
noncomputable def orientVal (p q r : Real × Real) : Real :=
  (q.1 - p.1) * (r.2 - p.2) - (q.2 - p.2) * (r.1 - p.1)

/-- Bounding-box membership of r in the box spanned by p and q, the usual companion of
the orientation test for the collinear cases. -/
def onSegment (p q r : Real × Real) : Prop :=
  min p.1 q.1 ≤ r.1 ∧ r.1 ≤ max p.1 q.1 ∧ min p.2 q.2 ≤ r.2 ∧ r.2 ≤ max p.2 q.2

noncomputable instance (p q r : Real × Real) : Decidable (onSegment p q r) := by
  unfold onSegment
  infer_instance

/-- Modelled from the spec: the repository module utils.py, which provides
line_line_intersection to rrt.py, is not under src, so the collision predicate is taken
from the words of spec section 4.1: the four orientation triples are computed, the
segments properly cross when the orientation signs straddle on both sides, and the
collinear or touching edge cases are treated as intersecting.  No claim settled here
depends on the internals of this predicate. -/
noncomputable def lineLineIntersection (s1 s2 : Segment) : Bool :=
  let a1 := s1.1
  let a2 := s1.2
  let b1 := s2.1
  let b2 := s2.2
  let d1 := orientVal b1 b2 a1
  let d2 := orientVal b1 b2 a2
  let d3 := orientVal a1 a2 b1
  let d4 := orientVal a1 a2 b2
  if (((0 < d1 ∧ d2 < 0) ∨ (d1 < 0 ∧ 0 < d2)) ∧ ((0 < d3 ∧ d4 < 0) ∨ (d3 < 0 ∧ 0 < d4)))
      ∨ (d1 = 0 ∧ onSegment b1 b2 a1) ∨ (d2 = 0 ∧ onSegment b1 b2 a2)
      ∨ (d3 = 0 ∧ onSegment a1 a2 b1) ∨ (d4 = 0 ∧ onSegment a1 a2 b2)
  then true else false

/-- Index of the first minimum of bv and the values of the list, where bv sits at index
bi and the list continues from index i: the recursion underlying np.argmin. -/
def argminAux [LinearOrder β] : List β → Nat → β → Nat → Nat
  | [], bi, _, _ => bi
  | d :: rest, bi, bv, i =>
    if d < bv then argminAux rest i d (i + 1) else argminAux rest bi bv (i + 1)

/-- np.argmin over a list of comparable values: the smallest index attaining the minimum
(ties resolved to the first occurrence).  np.argmin of an empty array is an error in
numpy; the solver only ever applies this to the nonempty node table. -/
def argmin [LinearOrder β] : List β → Nat
  | [] => 0
  | d :: rest => argminAux rest 0 d 1

/-- GeometricRRT.distance, rrt.py lines 122-123: the Euclidean norm of x1 - x2. -/
noncomputable def GeometricRRT.distance (x1 x2 : Real × Real) : Real :=
  Real.sqrt ((x1.1 - x2.1) ^ 2 + (x1.2 - x2.2) ^ 2)

/-- GeometricRRT.find_nearest, rrt.py lines 125-127: np.argmin of the distances from the
rows of V to x. -/
noncomputable def GeometricRRT.find_nearest (V : List (Real × Real)) (x : Real × Real) :
    Nat :=
  argmin (V.map (fun v => GeometricRRT.distance v x))

/-- np.arctan2 y x: the full-quadrant angle of the vector (x, y), which is the complex
argument of x + y i (range (-pi, pi], with arctan2 0 0 = 0, matching numpy on reals). -/
noncomputable def arctan2 (y x : Real) : Real :=
  Complex.arg ⟨x, y⟩

/-- GeometricRRT.steer_towards, rrt.py lines 129-134: return y when it is within
distance eps of x, otherwise advance eps along the straight bearing from x to y. -/
noncomputable def GeometricRRT.steer_towards (x y : Real × Real) (eps : Real) :
    Real × Real :=
  if GeometricRRT.distance x y < eps then y
  else
    let theta := arctan2 (y.2 - x.2) (y.1 - x.1)
    (x.1 + eps * Real.cos theta, x.2 + eps * Real.sin theta)

/-- GeometricRRT.is_free_motion, rrt.py lines 136-141: the single segment (x1, x2) must
meet no obstacle segment. -/
noncomputable def GeometricRRT.is_free_motion (obstacles : List Segment)
    (x1 x2 : Real × Real) : Bool :=
  obstacles.all (fun line => !lineLineIntersection (x1, x2) line)

/-- The GeometricRRT planning problem: the generic solver together with the Euclidean
steering methods, rrt.py lines 120-141. -/
noncomputable def GeometricRRT.problem (x_init x_goal : Real × Real)
    (obstacles : List Segment) : RRTProblem (Real × Real) Real (List Segment) :=
  ⟨x_init, x_goal, obstacles, GeometricRRT.find_nearest, GeometricRRT.steer_towards,
    GeometricRRT.is_free_motion⟩

/-- A Dubins configuration (x, y, heading). -/
def DubinsConfig : Type := Real × Real × Real

/-- The external Dubins curvature oracle (the dubins package, an external collaborator
per the spec): shortest constrained path length, and the waypoint list produced by
path_sample (the first component of its return value, the sampled configurations). -/
structure DubinsOracle where
  path_length : DubinsConfig → DubinsConfig → Real → Real
  path_sample : DubinsConfig → DubinsConfig → Real → Real → List DubinsConfig

/-- DubinsRRT.distance, rrt.py lines 164-165: the oracle path length at the configured
turning radius. -/
def DubinsRRT.distance (o : DubinsOracle) (turning_radius : Real)
    (x1 x2 : DubinsConfig) : Real :=
  o.path_length x1 x2 turning_radius

/-- DubinsRRT.find_nearest, rrt.py lines 167-169: np.argmin of the oracle distances. -/
noncomputable def DubinsRRT.find_nearest (o : DubinsOracle) (turning_radius : Real)
    (V : List DubinsConfig) (x : DubinsConfig) : Nat :=
  argmin (V.map (fun v => DubinsRRT.distance o turning_radius v x))

/-- DubinsRRT.steer_towards, rrt.py lines 171-181: return y when it is within steering
distance eps of x, otherwise the sample at arc length eps along the path computed with
the slightly enlarged radius 1.001 * turning_radius (path[0][1] in the source: the
second sampled configuration, the first being the start). -/
noncomputable def DubinsRRT.steer_towards (o : DubinsOracle) (turning_radius : Real)
    (x y : DubinsConfig) (eps : Real) : DubinsConfig :=
  if DubinsRRT.distance o turning_radius x y < eps then y
  else (o.path_sample x y (1.001 * turning_radius) eps).getD 1 y

/-- DubinsRRT.is_free_motion, rrt.py lines 183-190: sample the constrained path into
waypoints at arc step turning_radius * resolution, append the endpoint, and require that
no consecutive pair of 2D projections meets any obstacle. -/
noncomputable def DubinsRRT.is_free_motion (o : DubinsOracle) (turning_radius : Real)
    (resolution : Real) (obstacles : List Segment) (x1 x2 : DubinsConfig) : Bool :=
  let pts := o.path_sample x1 x2 turning_radius (turning_radius * resolution) ++ [x2]
  (List.zip pts pts.tail).all (fun pr =>
    obstacles.all (fun line =>
      !lineLineIntersection ((pr.1.1, pr.1.2.1), (pr.2.1, pr.2.2.1)) line))

/-- Outcome of invoking an attribute on a Python object: a normal return, a raised
NotImplementedError with its message, or a raised AttributeError for a name the class
does not define. -/
inductive PyOutcome where
  | ok
  | notImplementedError (msg : String)
  | attributeError (attr : String)
deriving DecidableEq

/-- Whether the outcome is the capability-not-implemented error. -/
def PyOutcome.isCapabilityNotImplemented : PyOutcome → Bool
  | PyOutcome.notImplementedError _ => true
  | _ => false

/-- Invoking a named attribute on the abstract base class RRT (rrt.py lines 7-55): the
class body defines exactly the methods listed in rrt.py, of which is_free_motion,
find_nearest and steer_towards raise NotImplementedError with the message written in the
source; by Python attribute semantics any other name, in particular distance (which only
the subclasses define), raises AttributeError. -/
def RRT.invokeOnBase (name : String) : PyOutcome :=
  if name = "is_free_motion" then
    PyOutcome.notImplementedError ("is_free_motion must be overriden by a subclass of RRT")
  else if name = "find_nearest" then
    PyOutcome.notImplementedError ("find_nearest must be overriden by a subclass of RRT")
  else if name = "steer_towards" then
    PyOutcome.notImplementedError ("steer_towards must be overriden by a subclass of RRT")
  else if name = "__init__" ∨ name = "solve" then PyOutcome.ok
  else PyOutcome.attributeError name

theorem solveLoop_succ [DecidableEq σ] [LinearOrder R] (pb : RRTProblem σ R O)
    (eps goal_bias : R) (stream : Nat → R × σ) (k rem : Nat) (V : List σ) (P : List Int) :
    RRT.solveLoop pb eps goal_bias stream k (rem + 1) V P =
      match RRT.solveStep pb eps goal_bias stream k V P with
      | StepOut.next V2 P2 => RRT.solveLoop pb eps goal_bias stream (k + 1) rem V2 P2
      | StepOut.done V2 P2 path => ⟨true, V2, P2, some path⟩ :=
  rfl

theorem solveStep_cases [DecidableEq σ] [LinearOrder R] (pb : RRTProblem σ R O)
    (eps goal_bias : R) (stream : Nat → R × σ) (k : Nat) (V : List σ) (P : List Int) :
    (RRT.solveStep pb eps goal_bias stream k V P = StepOut.next V P) ∨
    (∃ x_rand x_new, x_new = pb.steer_towards (V.getD (pb.find_nearest V x_rand) pb.x_init) x_rand eps ∧
      ((x_new ≠ pb.x_goal ∧
        RRT.solveStep pb eps goal_bias stream k V P =
          StepOut.next (V ++ [x_new]) (P ++ [(pb.find_nearest V x_rand : Int)])) ∨
       (x_new = pb.x_goal ∧
        RRT.solveStep pb eps goal_bias stream k V P =
          StepOut.done (V ++ [x_new]) (P ++ [(pb.find_nearest V x_rand : Int)])
            ((pb.x_goal :: pathWalk (V ++ [x_new]) (P ++ [(pb.find_nearest V x_rand : Int)])
              pb.x_init ((V ++ [x_new]).length - 1) (V ++ [x_new]).length).reverse)))) := by
  unfold RRT.solveStep
  by_cases hfree : pb.is_free_motion pb.obstacles
      (V.getD (pb.find_nearest V (if (stream k).1 < goal_bias then pb.x_goal else (stream k).2)) pb.x_init)
      (pb.steer_towards
        (V.getD (pb.find_nearest V (if (stream k).1 < goal_bias then pb.x_goal else (stream k).2)) pb.x_init)
        (if (stream k).1 < goal_bias then pb.x_goal else (stream k).2) eps) = true
  · rw [if_pos hfree]
    by_cases hgoal : pb.steer_towards
        (V.getD (pb.find_nearest V (if (stream k).1 < goal_bias then pb.x_goal else (stream k).2)) pb.x_init)
        (if (stream k).1 < goal_bias then pb.x_goal else (stream k).2) eps = pb.x_goal
    · right
      exact ⟨_, _, rfl, Or.inr ⟨hgoal, by rw [if_pos hgoal]⟩⟩
    · right
      exact ⟨_, _, rfl, Or.inl ⟨hgoal, by rw [if_neg hgoal]⟩⟩
  · left
    rw [if_neg hfree]

theorem TreeInv.append {V : List σ} {P : List Int} (h : TreeInv V P) (x : σ) (i : Nat)
    (hi : i < V.length) : TreeInv (V ++ [x]) (P ++ [(i : Int)]) := by
  obtain ⟨hlen, hpos, h0, hinv⟩ := h
  refine ⟨by simp [hlen], by simp, ?_, ?_⟩
  · rw [List.getD_append _ _ _ _ (by omega)]
    exact h0
  · intro j hj0 hj
    simp only [List.length_append, List.length_cons, List.length_nil] at hj
    by_cases hjP : j < P.length
    · rw [List.getD_append _ _ _ _ hjP]
      exact hinv j hj0 hjP
    · have hjeq : j = P.length := by omega
      rw [List.getD_append_right _ _ _ _ (by omega), hjeq]
      simp only [Nat.sub_self, List.getD_cons_zero]
      constructor
      · exact Int.ofNat_nonneg i
      · exact_mod_cast (hlen ▸ hi)

theorem solveStep_preserves_TreeInv [DecidableEq σ] [LinearOrder R] (pb : RRTProblem σ R O)
    (eps goal_bias : R) (stream : Nat → R × σ) (k : Nat) (V : List σ) (P : List Int)
    (hfn : ∀ (W : List σ) x, W ≠ [] → pb.find_nearest W x < W.length)
    (h : TreeInv V P) :
    TreeInv (RRT.solveStep pb eps goal_bias stream k V P).V
      (RRT.solveStep pb eps goal_bias stream k V P).P := by
  have hVne : V ≠ [] := by
    have : 0 < V.length := by
      have := h.1
      have := h.2.1
      omega
    exact List.length_pos.mp this
  rcases solveStep_cases pb eps goal_bias stream k V P with hc | ⟨xr, xn, _, ⟨_, hc⟩ | ⟨_, hc⟩⟩
  · rw [hc]
    exact h
  · rw [hc]
    exact h.append xn (pb.find_nearest V xr) (hfn V xr hVne)
  · rw [hc]
    exact h.append xn (pb.find_nearest V xr) (hfn V xr hVne)

theorem solveLoop_preserves_TreeInv [DecidableEq σ] [LinearOrder R] (pb : RRTProblem σ R O)
    (eps goal_bias : R) (stream : Nat → R × σ)
    (hfn : ∀ (W : List σ) x, W ≠ [] → pb.find_nearest W x < W.length) :
    ∀ (rem k : Nat) (V : List σ) (P : List Int), TreeInv V P →
      TreeInv (RRT.solveLoop pb eps goal_bias stream k rem V P).V
        (RRT.solveLoop pb eps goal_bias stream k rem V P).P := by
  intro rem
  induction rem with
  | zero => intro k V P h; exact h
  | succ rem ih =>
    intro k V P h
    rw [solveLoop_succ]
    have hstep := solveStep_preserves_TreeInv pb eps goal_bias stream k V P hfn h
    cases hc : RRT.solveStep pb eps goal_bias stream k V P with
    | next V2 P2 =>
      rw [hc] at hstep
      exact ih (k + 1) V2 P2 hstep
    | done V2 P2 path =>
      rw [hc] at hstep
      exact hstep

/-- Claim C3: throughout a run of solve the parent table is well-formed: P[0] is the
sentinel -1 and every later entry P[i] with 0 < i < n is a valid index of a strictly
earlier node, 0 <= P[i] < i.  The invariant is preserved by every iteration of the
growth loop (first conjunct: solveStep preserves TreeInv for every iteration index and
tree state), because each appended parent index is produced by find_nearest over the n
existing nodes; and it therefore holds for the tree a run of solve returns (second
conjunct).  The hypothesis states the in-range property of find_nearest that every
steering model provides (np.argmin over the n candidate distances). -/
theorem c3_parent_table_invariant [DecidableEq σ] [LinearOrder R] (pb : RRTProblem σ R O)
    (eps : R) (max_iters : Nat) (goal_bias : R) (stream : Nat → R × σ)
    (hfn : ∀ (W : List σ) x, W ≠ [] → pb.find_nearest W x < W.length) :
    (∀ (k : Nat) (V : List σ) (P : List Int), TreeInv V P →
      TreeInv (RRT.solveStep pb eps goal_bias stream k V P).V
        (RRT.solveStep pb eps goal_bias stream k V P).P) ∧
    TreeInv (RRT.solve pb eps max_iters goal_bias stream).V
      (RRT.solve pb eps max_iters goal_bias stream).P := by
  constructor
  · intro k V P h
    exact solveStep_preserves_TreeInv pb eps goal_bias stream k V P hfn h
  · apply solveLoop_preserves_TreeInv pb eps goal_bias stream hfn
    exact ⟨rfl, by norm_num, rfl, by intro i h1 h2; simp at h2; omega⟩

theorem solveLoop_result_shape [DecidableEq σ] [LinearOrder R] (pb : RRTProblem σ R O)
    (eps goal_bias : R) (stream : Nat → R × σ) :
    ∀ (rem k : Nat) (V : List σ) (P : List Int),
      ((RRT.solveLoop pb eps goal_bias stream k rem V P).path.isSome =
        (RRT.solveLoop pb eps goal_bias stream k rem V P).success) ∧
      (V ≠ [] → (RRT.solveLoop pb eps goal_bias stream k rem V P).V ≠ []) := by
  intro rem
  induction rem with
  | zero => intro k V P; exact ⟨rfl, fun h => h⟩
  | succ rem ih =>
    intro k V P
    rw [solveLoop_succ]
    rcases solveStep_cases pb eps goal_bias stream k V P with hc | ⟨xr, xn, _, ⟨_, hc⟩ | ⟨_, hc⟩⟩
    · rw [hc]
      exact ih (k + 1) V P
    · rw [hc]
      refine ⟨(ih (k + 1) (V ++ [xn]) (P ++ [(pb.find_nearest V xr : Int)])).1, fun _ => ?_⟩
      exact (ih (k + 1) (V ++ [xn]) (P ++ [(pb.find_nearest V xr : Int)])).2 (by simp)
    · rw [hc]
      exact ⟨rfl, fun _ => by simp⟩

theorem solveLoopChk_succ [DecidableEq σ] [LinearOrder R] (pb : RRTProblem σ R O)
    (capacity : Nat) (eps goal_bias : R) (stream : Nat → R × σ) (k rem : Nat)
    (V : List σ) (P : List Int) :
    RRT.solveLoopChk pb capacity eps goal_bias stream k (rem + 1) V P =
      match RRT.solveStepChk pb capacity eps goal_bias stream k V P with
      | none => none
      | some (StepOut.next V2 P2) =>
        RRT.solveLoopChk pb capacity eps goal_bias stream (k + 1) rem V2 P2
      | some (StepOut.done V2 P2 path) => some ⟨true, V2, P2, some path⟩ :=
  rfl

theorem solveStepChk_some [DecidableEq σ] [LinearOrder R] (pb : RRTProblem σ R O)
    (capacity : Nat) (eps goal_bias : R) (stream : Nat → R × σ) (k : Nat) (V : List σ)
    (P : List Int) (out : StepOut σ)
    (h : RRT.solveStepChk pb capacity eps goal_bias stream k V P = some out) :
    RRT.solveStep pb eps goal_bias stream k V P = out := by
  unfold RRT.solveStepChk at h
  unfold RRT.solveStep
  by_cases hfree : pb.is_free_motion pb.obstacles
      (V.getD (pb.find_nearest V (if (stream k).1 < goal_bias then pb.x_goal else (stream k).2)) pb.x_init)
      (pb.steer_towards
        (V.getD (pb.find_nearest V (if (stream k).1 < goal_bias then pb.x_goal else (stream k).2)) pb.x_init)
        (if (stream k).1 < goal_bias then pb.x_goal else (stream k).2) eps) = true
  · rw [if_pos hfree] at h
    rw [if_pos hfree]
    by_cases hcap : V.length < capacity
    · rw [if_pos hcap] at h
      by_cases hgoal : pb.steer_towards
          (V.getD (pb.find_nearest V (if (stream k).1 < goal_bias then pb.x_goal else (stream k).2)) pb.x_init)
          (if (stream k).1 < goal_bias then pb.x_goal else (stream k).2) eps = pb.x_goal
      · rw [if_pos hgoal] at h
        rw [if_pos hgoal]
        exact Option.some.inj h
      · rw [if_neg hgoal] at h
        rw [if_neg hgoal]
        exact Option.some.inj h
    · rw [if_neg hcap] at h
      exact absurd h (by simp)
  · rw [if_neg hfree] at h
    rw [if_neg hfree]
    exact Option.some.inj h

theorem solveLoopChk_agrees [DecidableEq σ] [LinearOrder R] (pb : RRTProblem σ R O)
    (capacity : Nat) (eps goal_bias : R) (stream : Nat → R × σ) :
    ∀ (rem k : Nat) (V : List σ) (P : List Int) (r : SolveResult σ),
      RRT.solveLoopChk pb capacity eps goal_bias stream k rem V P = some r →
      RRT.solveLoop pb eps goal_bias stream k rem V P = r := by
  intro rem
  induction rem with
  | zero =>
    intro k V P r h
    exact Option.some.inj h
  | succ rem ih =>
    intro k V P r h
    rw [solveLoopChk_succ] at h
    rw [solveLoop_succ]
    cases hc : RRT.solveStepChk pb capacity eps goal_bias stream k V P with
    | none =>
      rw [hc] at h
      exact absurd h (by simp)
    | some out =>
      rw [hc] at h
      rw [solveStepChk_some pb capacity eps goal_bias stream k V P out hc]
      cases out with
      | next V2 P2 => exact ih (k + 1) V2 P2 r h
      | done V2 P2 path => exact Option.some.inj h

/-- Claim C1, amended: a call of solve returns a result only when its run stays within
the preallocated capacity, and every such call returns the result record (success,
tree, path): the returned record is exactly the result of the logical solve loop, its
tree is always present and nonempty (it contains at least the root), and its solution
path is present exactly on the success outcome — on the exhausted outcome the tree is
returned with no path.  Calls in which every iteration appends a node without reaching
the goal overrun the capacity instead and return nothing (the C2 bug); see the
counterexample theorem.  (The source officially returns None and plots V, P, n, success
and solution_path; the spec places plotting out of scope and takes these documented
intermediate outputs as the result of the planning API, which SolveResult packages.) -/
theorem c1_solve_returns_unless_capacity_fault [DecidableEq σ] [LinearOrder R]
    (pb : RRTProblem σ R O) (eps : R) (max_iters : Nat) (goal_bias : R)
    (stream : Nat → R × σ) (r : SolveResult σ)
    (h : RRT.solveChk pb eps max_iters goal_bias stream = some r) :
    r = RRT.solve pb eps max_iters goal_bias stream ∧
    r.path.isSome = r.success ∧ r.V ≠ [] := by
  unfold RRT.solveChk at h
  by_cases h0 : 0 < max_iters
  · rw [if_pos h0] at h
    have hagree := solveLoopChk_agrees pb max_iters eps goal_bias stream max_iters 0
      [pb.x_init] [-1] r h
    have hshape := solveLoop_result_shape pb eps goal_bias stream max_iters 0
      [pb.x_init] [-1]
    rw [hagree] at hshape
    refine ⟨?_, hshape.1, hshape.2 (by simp)⟩
    unfold RRT.solve
    exact hagree.symm
  · rw [if_neg h0] at h
    exact absurd h (by simp)

/-- Claim C4: an iteration whose candidate motion is rejected by is_free_motion mutates
nothing: when is_free_motion applied to the iteration's nearest node and steered
candidate returns false, the iteration leaves the node and parent tables exactly as they
were and the loop just continues.  The hypothesis spells out the candidate exactly as
the loop body computes it (x_rand from the draw and the goal bias, x_near from
find_nearest, x_new from steer_towards). -/
theorem c4_rejected_candidate_no_mutation [DecidableEq σ] [LinearOrder R]
    (pb : RRTProblem σ R O) (eps goal_bias : R) (stream : Nat → R × σ) (k : Nat)
    (V : List σ) (P : List Int)
    (hfree : pb.is_free_motion pb.obstacles
      (V.getD (pb.find_nearest V (if (stream k).1 < goal_bias then pb.x_goal else (stream k).2)) pb.x_init)
      (pb.steer_towards
        (V.getD (pb.find_nearest V (if (stream k).1 < goal_bias then pb.x_goal else (stream k).2)) pb.x_init)
        (if (stream k).1 < goal_bias then pb.x_goal else (stream k).2) eps) = false) :
    RRT.solveStep pb eps goal_bias stream k V P = StepOut.next V P := by
  unfold RRT.solveStep
  rw [if_neg]
  rw [hfree]
  simp

theorem solveLoop_success_appended [DecidableEq σ] [LinearOrder R] (pb : RRTProblem σ R O)
    (eps goal_bias : R) (stream : Nat → R × σ) :
    ∀ (rem k : Nat) (V : List σ) (P : List Int), 1 ≤ V.length →
      (RRT.solveLoop pb eps goal_bias stream k rem V P).success = true →
      2 ≤ (RRT.solveLoop pb eps goal_bias stream k rem V P).V.length ∧
        (RRT.solveLoop pb eps goal_bias stream k rem V P).V.getLast? = some pb.x_goal := by
  intro rem
  induction rem with
  | zero =>
    intro k V P _ hsucc
    exact absurd hsucc (by simp [RRT.solveLoop])
  | succ rem ih =>
    intro k V P hV
    rw [solveLoop_succ]
    rcases solveStep_cases pb eps goal_bias stream k V P with hc | ⟨xr, xn, _, ⟨_, hc⟩ | ⟨hgoal, hc⟩⟩
    · rw [hc]
      exact ih (k + 1) V P hV
    · rw [hc]
      exact ih (k + 1) (V ++ [xn]) (P ++ [(pb.find_nearest V xr : Int)]) (by simp)
    · rw [hc]
      intro _
      subst hgoal
      constructor
      · simp
        omega
      · simp [List.getLast?_append_cons]

/-- Claim C9: when x_init equals x_goal, solve does not succeed at initialization: the
goal-equality test of the loop is applied only to newly appended nodes and never to the
root, so a successful run must have executed at least one iteration that appended a node
— on success the tree holds at least two nodes and its last node is the appended one
that equals x_goal. -/
theorem c9_init_eq_goal_still_needs_append [DecidableEq σ] [LinearOrder R]
    (pb : RRTProblem σ R O) (eps : R) (max_iters : Nat) (goal_bias : R)
    (stream : Nat → R × σ) (_hinit : pb.x_init = pb.x_goal) :
    (RRT.solve pb eps max_iters goal_bias stream).success = true →
      2 ≤ (RRT.solve pb eps max_iters goal_bias stream).V.length ∧
        (RRT.solve pb eps max_iters goal_bias stream).V.getLast? = some pb.x_goal := by
  intro hsucc
  exact solveLoop_success_appended pb eps goal_bias stream max_iters 0 [pb.x_init] [-1]
    (by simp) hsucc

theorem solveStep_stream_congr [DecidableEq σ] [LinearOrder R] (pb : RRTProblem σ R O)
    (eps goal_bias : R) (s1 s2 : Nat → R × σ) (k : Nat) (V : List σ) (P : List Int)
    (hs : s1 k = s2 k) :
    RRT.solveStep pb eps goal_bias s1 k V P = RRT.solveStep pb eps goal_bias s2 k V P := by
  unfold RRT.solveStep
  rw [hs]

theorem solveLoop_stream_congr [DecidableEq σ] [LinearOrder R] (pb : RRTProblem σ R O)
    (eps goal_bias : R) (s1 s2 : Nat → R × σ) :
    ∀ (rem k : Nat) (V : List σ) (P : List Int),
      (∀ j : Nat, k ≤ j → j < k + rem → s1 j = s2 j) →
      RRT.solveLoop pb eps goal_bias s1 k rem V P =
        RRT.solveLoop pb eps goal_bias s2 k rem V P := by
  intro rem
  induction rem with
  | zero => intro k V P _; rfl
  | succ rem ih =>
    intro k V P hs
    rw [solveLoop_succ, solveLoop_succ,
      solveStep_stream_congr pb eps goal_bias s1 s2 k V P (hs k (le_refl k) (by omega))]
    cases RRT.solveStep pb eps goal_bias s2 k V P with
    | next V2 P2 => exact ih (k + 1) V2 P2 (fun j h1 h2 => hs j (by omega) (by omega))
    | done V2 P2 path => rfl

/-- Claim C5, amended: determinism holds relative to the random stream — two runs of
solve with identical constructor inputs, identical (eps, max_iters, goal_bias) and
pseudo-random streams that agree on the max_iters draws the loop can consume produce
identical results (trees, success flags and solution paths).  The original claim
additionally asserts that the random source is an explicit, seedable generator passed
into the planner; in the source the draws come from the implicit numpy global state
(np.random.random_sample and np.random.uniform), which is not among the constructor or
solve parameters — see the counterexample theorem. -/
theorem c5_deterministic_given_stream [DecidableEq σ] [LinearOrder R]
    (pb : RRTProblem σ R O) (eps : R) (max_iters : Nat) (goal_bias : R)
    (s1 s2 : Nat → R × σ) (hs : ∀ j : Nat, j < max_iters → s1 j = s2 j) :
    RRT.solve pb eps max_iters goal_bias s1 = RRT.solve pb eps max_iters goal_bias s2 := by
  unfold RRT.solve
  exact solveLoop_stream_congr pb eps goal_bias s1 s2 max_iters 0 [pb.x_init] [-1]
    (fun j _ h2 => hs j (by omega))

/-- A small computable planning problem over natural-number configurations and integer
scalars, used to instantiate the generic theorems on concrete runs: the root is 0, the
goal is 1, there are no obstacles, find_nearest always answers 0 (in range for a
nonempty table), steering jumps to the target, and every motion is free. -/
def natProblem : RRTProblem Nat Int Unit :=
  ⟨0, 1, (), fun _ _ => 0, fun _ y _ => y, fun _ _ _ => true⟩

/-- A variant of natProblem whose collision test rejects every motion. -/
def natProblemReject : RRTProblem Nat Int Unit :=
  ⟨0, 1, (), fun _ _ => 0, fun _ y _ => y, fun _ _ _ => false⟩

/-- A variant of natProblem whose root already equals the goal (x_init = x_goal = 1). -/
def natProblemLoopback : RRTProblem Nat Int Unit :=
  ⟨1, 1, (), fun _ _ => 0, fun _ y _ => y, fun _ _ _ => true⟩

theorem c1_solve_returns_unless_capacity_fault_witness :
    (SolveResult.mk true [0, 1] [-1, 0] (some [0, 1]) : SolveResult Nat) =
      RRT.solve natProblem 1 2 1 (fun _ => ((0 : Int), (0 : Nat))) ∧
    (SolveResult.mk true [0, 1] [-1, 0] (some [0, 1]) : SolveResult Nat).path.isSome =
      (SolveResult.mk true [0, 1] [-1, 0] (some [0, 1]) : SolveResult Nat).success ∧
    (SolveResult.mk true [0, 1] [-1, 0] (some [0, 1]) : SolveResult Nat).V ≠ [] :=
  c1_solve_returns_unless_capacity_fault natProblem 1 2 1 (fun _ => ((0 : Int), (0 : Nat)))
    ⟨true, [0, 1], [-1, 0], some [0, 1]⟩ (by decide)

theorem c3_parent_table_invariant_witness :
    TreeInv (RRT.solve natProblem 1 1 1 (fun _ => ((0 : Int), (0 : Nat)))).V
      (RRT.solve natProblem 1 1 1 (fun _ => ((0 : Int), (0 : Nat)))).P :=
  (c3_parent_table_invariant natProblem 1 1 1 (fun _ => ((0 : Int), (0 : Nat)))
    (fun _ _ h => List.length_pos.mpr h)).2

theorem c4_rejected_candidate_no_mutation_witness :
    RRT.solveStep natProblemReject 1 1 (fun _ => ((0 : Int), (0 : Nat))) 0 [0] [-1] =
      StepOut.next [0] [-1] :=
  c4_rejected_candidate_no_mutation natProblemReject 1 1 (fun _ => ((0 : Int), (0 : Nat)))
    0 [0] [-1] rfl

theorem c5_deterministic_given_stream_witness :
    RRT.solve natProblem 1 1 1 (fun _ => ((0 : Int), (0 : Nat))) =
      RRT.solve natProblem 1 1 1
        (fun j => if j = 0 then ((0 : Int), (0 : Nat)) else ((5 : Int), (5 : Nat))) :=
  c5_deterministic_given_stream natProblem 1 1 1 _ _
    (fun j hj => by
      have hj0 : j = 0 := by omega
      subst hj0
      rfl)

/-- Claim C5, counterexample to the claim as stated: the source draws its randomness
from the implicit numpy global state, not from a generator passed into the planner.
Formally, the outcome of solve is not a function of the passed planner inputs alone:
with every constructor input and every solve argument (eps, max_iters, goal_bias)
identical, two runs that read different global pseudo-random streams produce different
outcomes (the first run draws z = 0 below the goal bias, samples the goal and succeeds;
the second draws z = 1 and exhausts its single iteration without success). -/
theorem c5_counterexample_global_stream :
    (RRT.solve natProblem 1 1 1 (fun _ => ((0 : Int), (0 : Nat)))).success = true ∧
    (RRT.solve natProblem 1 1 1 (fun _ => ((1 : Int), (0 : Nat)))).success = false ∧
    RRT.solve natProblem 1 1 1 (fun _ => ((0 : Int), (0 : Nat))) ≠
      RRT.solve natProblem 1 1 1 (fun _ => ((1 : Int), (0 : Nat))) := by
  refine ⟨by decide, by decide, ?_⟩
  intro h
  have := congrArg SolveResult.success h
  simp only [show (RRT.solve natProblem 1 1 1 (fun _ => ((0 : Int), (0 : Nat)))).success =
    true from by decide] at this
  simp only [show (RRT.solve natProblem 1 1 1 (fun _ => ((1 : Int), (0 : Nat)))).success =
    false from by decide] at this
  exact absurd this (by decide)

theorem c9_init_eq_goal_still_needs_append_witness :
    2 ≤ (RRT.solve natProblemLoopback 1 1 1 (fun _ => ((0 : Int), (0 : Nat)))).V.length ∧
      (RRT.solve natProblemLoopback 1 1 1 (fun _ => ((0 : Int), (0 : Nat)))).V.getLast? =
        some natProblemLoopback.x_goal :=
  c9_init_eq_goal_still_needs_append natProblemLoopback 1 1 1
    (fun _ => ((0 : Int), (0 : Nat))) rfl (by decide)

theorem pathWalk_succ [DecidableEq σ] (V : List σ) (P : List Int) (x_init : σ)
    (idx fuel : Nat) :
    pathWalk V P x_init idx (fuel + 1) =
      if V.getD idx x_init = x_init then []
      else V.getD (P.getD idx (-1)).toNat x_init ::
        pathWalk V P x_init (P.getD idx (-1)).toNat fuel :=
  rfl

theorem walkIdx_succ [DecidableEq σ] (V : List σ) (P : List Int) (x_init : σ)
    (idx fuel : Nat) :
    walkIdx V P x_init idx (fuel + 1) =
      if V.getD idx x_init = x_init then [idx]
      else idx :: walkIdx V P x_init (P.getD idx (-1)).toNat fuel :=
  rfl

theorem pathWalk_walkIdx [DecidableEq σ] (V : List σ) (P : List Int) (x_init : σ)
    (hroot : V.getD 0 x_init = x_init)
    (hinv : ∀ i : Nat, 0 < i → i < P.length → 0 ≤ P.getD i (-1) ∧ P.getD i (-1) < (i : Int))
    (hlen : P.length = V.length) :
    ∀ (fuel idx : Nat), idx < V.length → idx < fuel →
      (V.getD idx x_init :: pathWalk V P x_init idx fuel =
        (walkIdx V P x_init idx fuel).map (fun j => V.getD j x_init)) ∧
      (walkIdx V P x_init idx fuel).head? = some idx ∧
      List.Chain' (fun a b => b = (P.getD a (-1)).toNat) (walkIdx V P x_init idx fuel) ∧
      (∀ j ∈ (walkIdx V P x_init idx fuel).dropLast, V.getD j x_init ≠ x_init) ∧
      (∃ jl, (walkIdx V P x_init idx fuel).getLast? = some jl ∧
        V.getD jl x_init = x_init) := by
  intro fuel
  induction fuel with
  | zero => intro idx _ h2; omega
  | succ fuel ih =>
    intro idx hidx hfuel
    by_cases hstop : V.getD idx x_init = x_init
    · rw [pathWalk_succ, walkIdx_succ, if_pos hstop, if_pos hstop]
      exact ⟨by simp, rfl, List.chain'_singleton idx, by simp, idx, rfl, hstop⟩
    · have hidx0 : idx ≠ 0 := fun h => hstop (h ▸ hroot)
      have hiP : idx < P.length := hlen ▸ hidx
      have hPi := hinv idx (Nat.pos_of_ne_zero hidx0) hiP
      have hp : (P.getD idx (-1)).toNat < idx := by omega
      have hpV : (P.getD idx (-1)).toNat < V.length := by omega
      have hpf : (P.getD idx (-1)).toNat < fuel := by omega
      obtain ⟨iha, ihb, ihc, ihd, jl, ihe, ihf⟩ := ih (P.getD idx (-1)).toNat hpV hpf
      rw [pathWalk_succ, walkIdx_succ, if_neg hstop, if_neg hstop]
      obtain ⟨w, ws, hW⟩ : ∃ w ws,
          walkIdx V P x_init (P.getD idx (-1)).toNat fuel = w :: ws := by
        cases hW : walkIdx V P x_init (P.getD idx (-1)).toNat fuel with
        | nil => rw [hW] at ihb; exact absurd ihb (by simp)
        | cons w ws => exact ⟨w, ws, rfl⟩
      have hwp : (P.getD idx (-1)).toNat = w := by
        rw [hW] at ihb
        simpa using ihb.symm
      refine ⟨?_, rfl, ?_, ?_, ?_⟩
      · rw [List.map_cons, ← iha]
      · rw [List.chain'_cons']
        refine ⟨fun y hy => ?_, ihc⟩
        rw [hW] at hy
        simp only [List.head?_cons, Option.mem_def, Option.some.injEq] at hy
        exact hy ▸ hwp.symm
      · rw [hW, List.dropLast_cons₂]
        rw [hW] at ihd
        intro j hj
        rcases List.mem_cons.mp hj with hj | hj
        · exact hj ▸ hstop
        · exact ihd j hj
      · refine ⟨jl, ?_, ihf⟩
        rw [hW, List.getLast?_cons_cons]
        rw [hW] at ihe
        exact ihe

/-- Claim C10: solution-path reconstruction walks parent links starting from the newly
appended goal node and stops at the first node along the parent chain whose value equals
x_init — termination is by value comparison, not by reaching index 0.  Under the tree
invariant the reconstructed list x_goal :: pathWalk is exactly the value image of the
index trace walkIdx: the trace starts at idx, successive indices follow the parent
table, every index before the last holds a value different from x_init, the last index
jl holds the value x_init (so the reversed path begins with an x_init-valued entry), and
consequently whenever jl is not the root, index 0 is never visited: if any non-root
chain node equals x_init by value, the reconstructed path begins at that node rather
than continuing to the root index 0. -/
theorem c10_reconstruction_stops_at_first_init_value [DecidableEq σ] (V : List σ)
    (P : List Int) (x_init x_goal : σ) (idx fuel : Nat)
    (hroot : V.getD 0 x_init = x_init)
    (hinv : ∀ i : Nat, 0 < i → i < P.length →
      0 ≤ P.getD i (-1) ∧ P.getD i (-1) < (i : Int))
    (hlen : P.length = V.length)
    (hidx : idx < V.length) (hfuel : idx < fuel)
    (hgoal : V.getD idx x_init = x_goal) :
    (x_goal :: pathWalk V P x_init idx fuel =
      (walkIdx V P x_init idx fuel).map (fun j => V.getD j x_init)) ∧
    (walkIdx V P x_init idx fuel).head? = some idx ∧
    List.Chain' (fun a b => b = (P.getD a (-1)).toNat) (walkIdx V P x_init idx fuel) ∧
    (∀ j ∈ (walkIdx V P x_init idx fuel).dropLast, V.getD j x_init ≠ x_init) ∧
    (∃ jl, (walkIdx V P x_init idx fuel).getLast? = some jl ∧
      V.getD jl x_init = x_init ∧
      (jl ≠ 0 → 0 ∉ walkIdx V P x_init idx fuel)) ∧
    (x_goal :: pathWalk V P x_init idx fuel).reverse.head? = some x_init := by
  obtain ⟨ha, hb, hc, hd, jl, he, hf⟩ :=
    pathWalk_walkIdx V P x_init hroot hinv hlen fuel idx hidx hfuel
  rw [hgoal] at ha
  have hsplit : (walkIdx V P x_init idx fuel).dropLast ++ [jl] =
      walkIdx V P x_init idx fuel :=
    List.dropLast_append_getLast? jl (Option.mem_def.mpr he)
  refine ⟨ha, hb, hc, hd, ⟨jl, he, hf, ?_⟩, ?_⟩
  · intro hjl h0
    rw [← hsplit] at h0
    rcases List.mem_append.mp h0 with h0 | h0
    · exact hd 0 h0 hroot
    · exact hjl (List.mem_singleton.mp h0).symm
  · rw [List.head?_reverse, ha, List.getLast?_map, he, Option.map_some', hf]

theorem c10_reconstruction_stops_at_first_init_value_witness :
    ((9 : Nat) :: pathWalk [7, 7, 9] [-1, 0, 1] 7 2 3 =
      (walkIdx [7, 7, 9] [-1, 0, 1] (7 : Nat) 2 3).map
        (fun j => List.getD [7, 7, 9] j 7)) ∧
    (walkIdx [7, 7, 9] [-1, 0, 1] (7 : Nat) 2 3).head? = some 2 ∧
    List.Chain' (fun a b => b = (List.getD [-1, 0, 1] a (-1)).toNat)
      (walkIdx [7, 7, 9] [-1, 0, 1] (7 : Nat) 2 3) ∧
    (∀ j ∈ (walkIdx [7, 7, 9] [-1, 0, 1] (7 : Nat) 2 3).dropLast,
      List.getD [7, 7, 9] j 7 ≠ 7) ∧
    (∃ jl, (walkIdx [7, 7, 9] [-1, 0, 1] (7 : Nat) 2 3).getLast? = some jl ∧
      List.getD [7, 7, 9] jl 7 = 7 ∧
      (jl ≠ 0 → 0 ∉ walkIdx [7, 7, 9] [-1, 0, 1] (7 : Nat) 2 3)) ∧
    ((9 : Nat) :: pathWalk [7, 7, 9] [-1, 0, 1] 7 2 3).reverse.head? = some 7 :=
  c10_reconstruction_stops_at_first_init_value [7, 7, 9] [-1, 0, 1] 7 9 2 3
    (by decide)
    (by
      intro i h1 h2
      simp only [List.length_cons, List.length_nil] at h2
      interval_cases i
      · exact ⟨by decide, by decide⟩
      · exact ⟨by decide, by decide⟩)
    (by decide) (by decide) (by decide) (by decide)

theorem geometric_steer_of_lt_returns_target {x y : Real × Real} {eps : Real}
    (h : GeometricRRT.distance x y < eps) : GeometricRRT.steer_towards x y eps = y := by
  unfold GeometricRRT.steer_towards
  rw [if_pos h]

theorem dubins_steer_of_lt_returns_target {o : DubinsOracle} {r : Real} {x y : DubinsConfig}
    {eps : Real} (h : DubinsRRT.distance o r x y < eps) :
    DubinsRRT.steer_towards o r x y eps = y := by
  unfold DubinsRRT.steer_towards
  rw [if_pos h]

theorem GeometricRRT.distance_self (x : Real × Real) : GeometricRRT.distance x x = 0 := by
  unfold GeometricRRT.distance
  simp

/-- Claim C6: for both steering variants, whenever the steering distance from x to y is
below eps, steer_towards returns y exactly (first two conjuncts); in particular steering
between coincident configurations returns the target immediately — for the Euclidean
variant the distance of a configuration to itself is 0, and for the Dubins variant a
zero oracle path length likewise lands in the immediate-return branch — so the bearing
computation (arctan2 on a zero displacement) in the other branch is never evaluated and
no division by zero is performed (latter two conjuncts). -/
theorem c6_steer_within_eps_returns_target :
    (∀ (x y : Real × Real) (eps : Real), GeometricRRT.distance x y < eps →
      GeometricRRT.steer_towards x y eps = y) ∧
    (∀ (o : DubinsOracle) (r : Real) (x y : DubinsConfig) (eps : Real),
      DubinsRRT.distance o r x y < eps → DubinsRRT.steer_towards o r x y eps = y) ∧
    (∀ (x : Real × Real) (eps : Real), 0 < eps → GeometricRRT.steer_towards x x eps = x) ∧
    (∀ (o : DubinsOracle) (r : Real) (x : DubinsConfig) (eps : Real),
      o.path_length x x r = 0 → 0 < eps → DubinsRRT.steer_towards o r x x eps = x) := by
  refine ⟨fun x y eps h => geometric_steer_of_lt_returns_target h,
    fun o r x y eps h => dubins_steer_of_lt_returns_target h,
    fun x eps h => ?_, fun o r x eps h0 h => ?_⟩
  · exact geometric_steer_of_lt_returns_target (by rw [GeometricRRT.distance_self]; exact h)
  · refine dubins_steer_of_lt_returns_target ?_
    unfold DubinsRRT.distance
    rw [h0]
    exact h

/-- An oracle whose path length is identically zero, used only to instantiate the Dubins
conjuncts of the steering theorem on a concrete input. -/
def zeroOracle : DubinsOracle := ⟨fun _ _ _ => 0, fun _ _ _ _ => []⟩

theorem c6_steer_within_eps_returns_target_witness :
    GeometricRRT.steer_towards ((0 : Real), (0 : Real)) ((0 : Real), (0 : Real)) 1 =
      ((0 : Real), (0 : Real)) ∧
    DubinsRRT.steer_towards zeroOracle 1 ((0 : Real), (0 : Real), (0 : Real))
      ((0 : Real), (0 : Real), (0 : Real)) 1 = ((0 : Real), (0 : Real), (0 : Real)) :=
  ⟨c6_steer_within_eps_returns_target.2.2.1 ((0 : Real), (0 : Real)) 1 one_pos,
   c6_steer_within_eps_returns_target.2.2.2 zeroOracle 1
     ((0 : Real), (0 : Real), (0 : Real)) 1 rfl one_pos⟩

/-- Claim C1, counterexample to the claim as stated: not every call of solve returns a
result.  On the same failing input as C2 (Euclidean steering, no obstacles, goal (9, 9)
out of reach, eps 1, max_iters 1, goal_bias 0, first draw z = 1/2 with uniform sample
(0, 0)), the single iteration accepts its candidate and must write it at index 1 of
the capacity-1 arrays, so the checked run returns nothing: in the source, V[1, :] =
x_new raises IndexError and solve never reaches a terminal outcome — although this run
would otherwise end exhausted, precisely the case in which the claim asserts the tree is
returned with no path. -/
theorem c1_counterexample_overflow_no_return :
    RRT.solveChk (GeometricRRT.problem ((0 : Real), (0 : Real)) ((9 : Real), (9 : Real)) [])
      1 1 0 (fun _ => ((1 : Real) / 2, ((0 : Real), (0 : Real)))) = none := by
  have hstep : RRT.solveStepChk
      (GeometricRRT.problem ((0 : Real), (0 : Real)) ((9 : Real), (9 : Real)) []) 1 1 0
      (fun _ => ((1 : Real) / 2, ((0 : Real), (0 : Real)))) 0
      [((0 : Real), (0 : Real))] [-1] = none := by
    unfold RRT.solveStepChk
    simp only [GeometricRRT.problem]
    rw [if_neg (by norm_num : ¬ ((1 : Real) / 2 < (0 : Real)))]
    rw [show GeometricRRT.find_nearest [((0 : Real), (0 : Real))] ((0 : Real), (0 : Real)) = 0
      from rfl]
    rw [show List.getD [((0 : Real), (0 : Real))] 0 ((0 : Real), (0 : Real)) =
      ((0 : Real), (0 : Real)) from rfl]
    rw [geometric_steer_of_lt_returns_target (by rw [GeometricRRT.distance_self]; norm_num)]
    rw [if_pos (show GeometricRRT.is_free_motion [] ((0 : Real), (0 : Real))
      ((0 : Real), (0 : Real)) = true from rfl)]
    rw [if_neg (show ¬ ([((0 : Real), (0 : Real))].length < 1) from by decide)]
  unfold RRT.solveChk
  rw [if_pos (by norm_num : 0 < 1)]
  rw [show (GeometricRRT.problem ((0 : Real), (0 : Real)) ((9 : Real), (9 : Real)) []).x_init =
    ((0 : Real), (0 : Real)) from rfl]
  show RRT.solveLoopChk
      (GeometricRRT.problem ((0 : Real), (0 : Real)) ((9 : Real), (9 : Real)) []) 1 1 0
      (fun _ => ((1 : Real) / 2, ((0 : Real), (0 : Real)))) 0 (0 + 1)
      [((0 : Real), (0 : Real))] [-1] = none
  rw [solveLoopChk_succ, hstep]

/-- Claim C2 is contradicted by the code (see RESULTS): the root occupies slot 0 of the
capacity-max_iters arrays and each of the max_iters iterations can append one node, so a
run in which every extension is accepted and the goal is never reached grows the logical
size to max_iters + 1 and its final append addresses index max_iters, one past the last
valid index — in numpy, V[max_iters, :] = x_new raises IndexError.  This theorem
evaluates such a run: Euclidean steering, no obstacles, goal (9, 9) out of reach,
goal_bias 0, max_iters 1, a draw with z = 1/2 and uniform sample (0, 0); the single
iteration accepts its candidate, and the final tree size is 2 > max_iters = 1, so the
append wrote at index 1 = max_iters of the capacity-1 arrays. -/
theorem c2_capacity_overflow_run :
    (RRT.solve (GeometricRRT.problem ((0 : Real), (0 : Real)) ((9 : Real), (9 : Real)) [])
      1 1 0 (fun _ => ((1 : Real) / 2, ((0 : Real), (0 : Real))))).V.length = 2 ∧
    ¬ ((RRT.solve (GeometricRRT.problem ((0 : Real), (0 : Real)) ((9 : Real), (9 : Real)) [])
      1 1 0 (fun _ => ((1 : Real) / 2, ((0 : Real), (0 : Real))))).V.length ≤ 1) := by
  have hstep : RRT.solveStep
      (GeometricRRT.problem ((0 : Real), (0 : Real)) ((9 : Real), (9 : Real)) []) 1 0
      (fun _ => ((1 : Real) / 2, ((0 : Real), (0 : Real)))) 0
      [((0 : Real), (0 : Real))] [-1] =
      StepOut.next [((0 : Real), (0 : Real)), ((0 : Real), (0 : Real))] [-1, 0] := by
    unfold RRT.solveStep
    simp only [GeometricRRT.problem]
    rw [if_neg (by norm_num : ¬ ((1 : Real) / 2 < (0 : Real)))]
    rw [show GeometricRRT.find_nearest [((0 : Real), (0 : Real))] ((0 : Real), (0 : Real)) = 0
      from rfl]
    rw [show List.getD [((0 : Real), (0 : Real))] 0 ((0 : Real), (0 : Real)) =
      ((0 : Real), (0 : Real)) from rfl]
    rw [geometric_steer_of_lt_returns_target (by rw [GeometricRRT.distance_self]; norm_num)]
    rw [if_pos (show GeometricRRT.is_free_motion [] ((0 : Real), (0 : Real))
      ((0 : Real), (0 : Real)) = true from rfl)]
    rw [if_neg (show ¬ (((0 : Real), (0 : Real)) = ((9 : Real), (9 : Real))) from by
      intro h
      have := congrArg Prod.fst h
      norm_num at this)]
    rfl
  unfold RRT.solve
  rw [show (GeometricRRT.problem ((0 : Real), (0 : Real)) ((9 : Real), (9 : Real)) []).x_init =
    ((0 : Real), (0 : Real)) from rfl]
  rw [show (1 : Nat) = 0 + 1 from rfl, solveLoop_succ, hstep]
  norm_num [RRT.solveLoop]

/-- Claim C8: scenario A of the spec — Euclidean steering, an empty obstacle set,
x_init = (0, 0), x_goal = (1, 1), eps = 2, goal_bias = 1, max_iters = 10.  For any
random stream (the hypothesis records that the z-draw of the first iteration lies below
the goal bias of 1, which holds for every draw of random_sample, whose range is [0, 1)),
the goal is sampled with certainty, steering snaps to it because the remaining distance
sqrt 2 is below eps = 2, the motion is free, and the run succeeds on the first iteration
with the two-node tree [(0,0), (1,1)], parent table [-1, 0], and the two-node path
[(0,0), (1,1)]. -/
theorem c8_scenario_a (stream : Nat → Real × (Real × Real)) (h : (stream 0).1 < 1) :
    (RRT.solve (GeometricRRT.problem ((0 : Real), (0 : Real)) ((1 : Real), (1 : Real)) [])
      2 10 1 stream).success = true ∧
    (RRT.solve (GeometricRRT.problem ((0 : Real), (0 : Real)) ((1 : Real), (1 : Real)) [])
      2 10 1 stream).V = [((0 : Real), (0 : Real)), ((1 : Real), (1 : Real))] ∧
    (RRT.solve (GeometricRRT.problem ((0 : Real), (0 : Real)) ((1 : Real), (1 : Real)) [])
      2 10 1 stream).P = [-1, 0] ∧
    (RRT.solve (GeometricRRT.problem ((0 : Real), (0 : Real)) ((1 : Real), (1 : Real)) [])
      2 10 1 stream).path = some [((0 : Real), (0 : Real)), ((1 : Real), (1 : Real))] := by
  have hd : GeometricRRT.distance ((0 : Real), (0 : Real)) ((1 : Real), (1 : Real)) < 2 := by
    show Real.sqrt (((0 : Real) - 1) ^ 2 + ((0 : Real) - 1) ^ 2) < 2
    rw [show ((0 : Real) - 1) ^ 2 + ((0 : Real) - 1) ^ 2 = 2 by norm_num]
    rw [Real.sqrt_lt' (by norm_num : (0 : Real) < 2)]
    norm_num
  have hpw : pathWalk [((0 : Real), (0 : Real)), ((1 : Real), (1 : Real))] [-1, 0]
      ((0 : Real), (0 : Real)) 1 2 = [((0 : Real), (0 : Real))] := by
    rw [show (2 : Nat) = 1 + 1 from rfl, pathWalk_succ]
    rw [if_neg (show ¬ (List.getD [((0 : Real), (0 : Real)), ((1 : Real), (1 : Real))] 1
        ((0 : Real), (0 : Real)) = ((0 : Real), (0 : Real))) from by
      intro hh
      have := congrArg Prod.fst hh
      norm_num at this)]
    rw [show ((List.getD [(-1 : Int), 0] 1 (-1)).toNat) = 0 from rfl]
    rw [show (1 : Nat) = 0 + 1 from rfl, pathWalk_succ]
    rw [if_pos (show List.getD [((0 : Real), (0 : Real)), ((1 : Real), (1 : Real))] 0
      ((0 : Real), (0 : Real)) = ((0 : Real), (0 : Real)) from rfl)]
    rfl
  have hstep : RRT.solveStep
      (GeometricRRT.problem ((0 : Real), (0 : Real)) ((1 : Real), (1 : Real)) []) 2 1 stream 0
      [((0 : Real), (0 : Real))] [-1] =
      StepOut.done [((0 : Real), (0 : Real)), ((1 : Real), (1 : Real))] [-1, 0]
        [((0 : Real), (0 : Real)), ((1 : Real), (1 : Real))] := by
    unfold RRT.solveStep
    simp only [GeometricRRT.problem]
    rw [if_pos h]
    rw [show GeometricRRT.find_nearest [((0 : Real), (0 : Real))] ((1 : Real), (1 : Real)) = 0
      from rfl]
    rw [show List.getD [((0 : Real), (0 : Real))] 0 ((0 : Real), (0 : Real)) =
      ((0 : Real), (0 : Real)) from rfl]
    rw [geometric_steer_of_lt_returns_target hd]
    rw [if_pos (show GeometricRRT.is_free_motion [] ((0 : Real), (0 : Real))
      ((1 : Real), (1 : Real)) = true from rfl)]
    rw [if_pos rfl]
    show StepOut.done [((0 : Real), (0 : Real)), ((1 : Real), (1 : Real))] [-1, 0]
      ((((1 : Real), (1 : Real)) ::
        pathWalk [((0 : Real), (0 : Real)), ((1 : Real), (1 : Real))] [-1, 0]
          ((0 : Real), (0 : Real)) 1 2).reverse) = _
    rw [hpw]
    rfl
  unfold RRT.solve
  rw [show (GeometricRRT.problem ((0 : Real), (0 : Real)) ((1 : Real), (1 : Real)) []).x_init =
    ((0 : Real), (0 : Real)) from rfl]
  rw [show (10 : Nat) = 9 + 1 from rfl, solveLoop_succ, hstep]
  exact ⟨rfl, rfl, rfl, rfl⟩

theorem c8_scenario_a_witness :
    (RRT.solve (GeometricRRT.problem ((0 : Real), (0 : Real)) ((1 : Real), (1 : Real)) [])
      2 10 1 (fun _ => ((0 : Real), ((0 : Real), (0 : Real))))).success = true ∧
    (RRT.solve (GeometricRRT.problem ((0 : Real), (0 : Real)) ((1 : Real), (1 : Real)) [])
      2 10 1 (fun _ => ((0 : Real), ((0 : Real), (0 : Real))))).V =
        [((0 : Real), (0 : Real)), ((1 : Real), (1 : Real))] ∧
    (RRT.solve (GeometricRRT.problem ((0 : Real), (0 : Real)) ((1 : Real), (1 : Real)) [])
      2 10 1 (fun _ => ((0 : Real), ((0 : Real), (0 : Real))))).P = [-1, 0] ∧
    (RRT.solve (GeometricRRT.problem ((0 : Real), (0 : Real)) ((1 : Real), (1 : Real)) [])
      2 10 1 (fun _ => ((0 : Real), ((0 : Real), (0 : Real))))).path =
        some [((0 : Real), (0 : Real)), ((1 : Real), (1 : Real))] :=
  c8_scenario_a (fun _ => ((0 : Real), ((0 : Real), (0 : Real)))) (by norm_num)

/-- Claim C7, amended: the three steering capabilities the abstract base class actually
defines — find_nearest, steer_towards and is_free_motion — fail with the
NotImplementedError messages written in rrt.py when invoked on the base class.  The
fourth capability of the interface, distance, is not defined on the base class at all
(only the two subclasses define it), so invoking it fails too, but with an
AttributeError rather than a capability-not-implemented error — see the counterexample
theorem for the original claim. -/
theorem c7_base_capabilities_not_implemented :
    RRT.invokeOnBase ("find_nearest") =
      PyOutcome.notImplementedError ("find_nearest must be overriden by a subclass of RRT") ∧
    RRT.invokeOnBase ("steer_towards") =
      PyOutcome.notImplementedError ("steer_towards must be overriden by a subclass of RRT") ∧
    RRT.invokeOnBase ("is_free_motion") =
      PyOutcome.notImplementedError ("is_free_motion must be overriden by a subclass of RRT") ∧
    (RRT.invokeOnBase ("find_nearest")).isCapabilityNotImplemented = true ∧
    (RRT.invokeOnBase ("steer_towards")).isCapabilityNotImplemented = true ∧
    (RRT.invokeOnBase ("is_free_motion")).isCapabilityNotImplemented = true := by
  exact ⟨rfl, rfl, rfl, rfl, rfl, rfl⟩

/-- Claim C7, counterexample to the claim as stated: the claim asserts that all four
SteeringModel capabilities, including distance, fail on the abstract base with a
capability-not-implemented error; but the base class body of rrt.py defines no distance
method, so invoking distance on the base fails with an AttributeError, not with a
NotImplementedError. -/
theorem c7_counterexample_distance_attribute_error :
    RRT.invokeOnBase ("distance") = PyOutcome.attributeError ("distance") ∧
    (RRT.invokeOnBase ("distance")).isCapabilityNotImplemented = false := by
  exact ⟨rfl, rfl⟩
